import Mathlib

/-!
Verification of the authy-to-otpauth converter (src/convert.py).

The Python source is shallowly embedded: strings are Lean `String`s
(manipulated through their `List Char` data), token records are a
structure of `Option` fields (`none` = key absent in the JSON object,
mirroring `dict.get`), stdin lines in interactive mode are a
`List String`, and the batch driver's file-system effects are modelled
by an `InputData` sum (file missing / bad JSON / parsed token list) and
a result record carrying the would-be output file contents and the
logged errors.

Python's `str.strip` and the regex class `\s` are modelled over the
ASCII whitespace characters; `re.IGNORECASE` literal matching is
modelled by comparing `Char.toLower` images, and `str.upper` /
`islower` on the ASCII range, as in the examples the program handles.
-/

/-- ASCII whitespace as matched by Python's `\s` and stripped by `str.strip`. -/
def isPySpace (c : Char) : Bool :=
  c = ' ' || c = '\t' || c = '\n' || c = '\r' || c = '\x0b' || c = '\x0c'

/-- Trim whitespace from both ends of a character list. -/
def trimL (l : List Char) : List Char :=
  ((l.dropWhile isPySpace).reverse.dropWhile isPySpace).reverse

/-- Python `str.strip()`. -/
def pyStrip (s : String) : String :=
  String.mk (trimL s.data)

/-- Case-insensitive literal match of `pat` at the start of `s`
(the `re.escape(issuer)` part of the pattern in
`strip_issuer_from_name`, under `re.IGNORECASE`): returns the
remainder of `s` after the match, or `none`. -/
def stripCaseless (pat s : List Char) : Option (List Char) :=
  match pat, s with
  | [], rest => some rest
  | _ :: _, [] => none
  | c :: cs, d :: ds => if c.toLower = d.toLower then stripCaseless cs ds else none

/-- The separator part `\s*[:\-\s]\s*` of the pattern in
`strip_issuer_from_name`, matched greedily with backtracking as the
`re` engine does: the leading `\s*` takes all whitespace, then the
class needs one of `:`, `-` or a whitespace character; when the first
non-whitespace character is not `:` or `-` the engine gives one
whitespace character back to serve as the class character (so the
match succeeds whenever any whitespace is present).  Returns the
remainder after the whole separator match, or `none` when the
separator is absent. -/
def sepConsume (r : List Char) : Option (List Char) :=
  match r.dropWhile isPySpace with
  | c :: rest =>
    if c = ':' || c = '-' then some (rest.dropWhile isPySpace)
    else if (r.takeWhile isPySpace).isEmpty then none
    else some (c :: rest)
  | [] => if (r.takeWhile isPySpace).isEmpty then none else some []

/-- `strip_issuer_from_name(name, issuer)` from src/convert.py:
`pattern.sub('', name).strip()` with
`pattern = ^ re.escape(issuer) \s*[:\-\s]\s*` under `re.IGNORECASE`
(the `^` anchor means the substitution fires at most once, at
position 0), after the guard `if not name or not issuer`. -/
def strip_issuer_from_name (name issuer : String) : String :=
  if name = "" then ""
  else if issuer = "" then pyStrip name
  else
    match stripCaseless issuer.data name.data with
    | none => pyStrip name
    | some r =>
      match sepConsume r with
      | none => pyStrip name
      | some rest => pyStrip (String.mk rest)

/-- One byte of the UTF-8 encoding table, as percent-encoded by
`urllib.parse.quote`: two uppercase hex digits after `%`. -/
def hexDigit (n : Nat) : Char :=
  if n < 10 then Char.ofNat (48 + n) else Char.ofNat (55 + n)

/-- Percent-encoding of a single byte value. -/
def pctByte (b : Nat) : List Char :=
  ['%', hexDigit (b / 16), hexDigit (b % 16)]

/-- UTF-8 bytes of a code point, as values in `Nat`. -/
def utf8Bytes (n : Nat) : List Nat :=
  if n < 128 then [n]
  else if n < 2048 then [192 + n / 64, 128 + n % 64]
  else if n < 65536 then [224 + n / 4096, 128 + (n / 64) % 64, 128 + n % 64]
  else [240 + n / 262144, 128 + (n / 4096) % 64, 128 + (n / 64) % 64, 128 + n % 64]

/-- Characters `urllib.parse.quote` never encodes (with `safe=''`):
ASCII letters and digits and `_.-~`. -/
def isUrlSafe (c : Char) : Bool :=
  c.isAlpha || c.isDigit || c = '_' || c = '.' || c = '-' || c = '~'

/-- `urllib.parse.quote(s, safe='')`. -/
def pyQuote (s : String) : String :=
  String.mk (s.data.flatMap fun c =>
    if isUrlSafe c then [c] else (utf8Bytes c.toNat).flatMap pctByte)

/-- One decrypted token record from the input JSON.  `none` models an
absent key, so `dict.get(k, d)` is `Option.getD`. -/
structure Token where
  name : Option String := none
  issuer : Option String := none
  logo : Option String := none
  account_type : Option String := none
  decrypted_seed : Option String := none
  digits : Option Nat := none

/-- `token.get('issuer', '')` in `generate_otpauth_uri`. -/
def tokenIssuerStr (t : Token) : String := t.issuer.getD ""

/-- `token.get('name', '')` in `generate_otpauth_uri`. -/
def tokenNameStr (t : Token) : String := t.name.getD ""

/-- `token.get('decrypted_seed', '')` in `generate_otpauth_uri`. -/
def tokenSecret (t : Token) : String := t.decrypted_seed.getD ""

/-- `token.get('digits', 6)` in `generate_otpauth_uri`. -/
def tokenDigits (t : Token) : Nat := t.digits.getD 6

/-- The `account` local of `generate_otpauth_uri`: the cleaned name,
falling back to the original stripped name when cleaning leaves it
empty. -/
def tokenAccount (t : Token) : String :=
  let account := strip_issuer_from_name (tokenNameStr t) (tokenIssuerStr t)
  if account = "" then pyStrip (tokenNameStr t) else account

/-- The `label` local of `generate_otpauth_uri`:
`f"{issuer}:{account}" if issuer else account`. -/
def tokenLabel (t : Token) : String :=
  if tokenIssuerStr t ≠ "" then tokenIssuerStr t ++ ":" ++ tokenAccount t
  else tokenAccount t

/-- The `params` list of `generate_otpauth_uri`, built by the same
sequence of conditional appends as the Python code (`if secret:`,
`if issuer:`, `if digits:`, then the unconditional
`params.append("algorithm=SHA1")`). -/
def queryParams (secret issuer : String) (digits : Nat) : List String :=
  let params : List String := []
  let params := if secret ≠ "" then params ++ ["secret=" ++ secret] else params
  let params := if issuer ≠ "" then params ++ ["issuer=" ++ pyQuote issuer] else params
  let params := if digits ≠ 0 then params ++ ["digits=" ++ toString digits] else params
  params ++ ["algorithm=SHA1"]

/-- `generate_otpauth_uri(token)` from src/convert.py. -/
def generate_otpauth_uri (t : Token) : String :=
  let uri := "otpauth://totp/" ++ pyQuote (tokenLabel t)
  let params := queryParams (tokenSecret t) (tokenIssuerStr t) (tokenDigits t)
  if params ≠ [] then uri ++ "?" ++ String.intercalate "&" params else uri

/-- Python `str.startswith` on our string model. -/
def pyStartsWith (s pat : String) : Bool :=
  pat.data.isPrefixOf s.data

/-- Whitespace-splitting of `str.split()` with no argument: maximal
runs of non-whitespace characters, empty runs dropped.  `acc` is the
current word being accumulated, reversed. -/
def wordsAux : List Char → List Char → List (List Char)
  | [], acc => if acc.isEmpty then [] else [acc.reverse]
  | c :: cs, acc =>
    if isPySpace c then
      if acc.isEmpty then wordsAux cs [] else acc.reverse :: wordsAux cs []
    else wordsAux cs (c :: acc)

/-- `issuer.split()` in `convert_tokens`. -/
def pySplit (s : String) : List String :=
  (wordsAux s.data []).map String.mk

/-- The loop body of the title-casing pass in `convert_tokens`:
`if words[i][0].islower(): words[i] = words[i][0].upper() + words[i][1:]`. -/
def capFirstL (w : List Char) : List Char :=
  match w with
  | [] => []
  | c :: cs => if c.isLower then c.toUpper :: cs else c :: cs

/-- String version of `capFirstL`. -/
def capFirst (w : String) : String :=
  String.mk (capFirstL w.data)

/-- The title-casing pass of `convert_tokens` (lines 145-150): split
the issuer on whitespace, uppercase the first character of each word
that starts lowercase, rejoin with single spaces. -/
def titleCase (s : String) : String :=
  String.intercalate " " ((pySplit s).map capFirst)

/-- The issuer fallback chain of `convert_tokens` (lines 121-143),
before title-casing: the cascade of `if not issuer:` blocks.  An
`Option` field holds the raw `token.get(...)` result; Python
truthiness of a possibly-`None` string is `getD "" ≠ ""`. -/
def resolveIssuerPre (t : Token) : String :=
  let issuer := t.issuer.getD ""
  let issuer :=
    if issuer = "" then
      match t.logo with
      | some logo => if logo ≠ "" && !(pyStartsWith logo "authenticator_") then logo else ""
      | none => ""
    else issuer
  let issuer :=
    if issuer = "" then
      match t.account_type with
      | some a => if a ≠ "" && !(pyStartsWith a "authenticator") then a else ""
      | none => ""
    else issuer
  let issuer :=
    if issuer = "" then
      let name := t.name.getD ""
      if name.data.contains ':' then pyStrip (String.mk (name.data.takeWhile (· != ':')))
      else ""
    else issuer
  if issuer = "" then pyStrip (t.name.getD "") else issuer

/-- Lines 145-150 of `convert_tokens`: the resolved issuer with the
title-casing pass applied when non-empty. -/
def resolveIssuer (t : Token) : String :=
  let issuer := resolveIssuerPre t
  if issuer ≠ "" then titleCase issuer else issuer

/-- Python's substring test `pat in s`, on character lists. -/
def hasSubstr (pat : List Char) : List Char → Bool
  | [] => pat.isEmpty
  | c :: cs => pat.isPrefixOf (c :: cs) || hasSubstr pat cs

/-- Per-token body of the loop in `convert_tokens` (lines 119-177).
`stdin` is the stream of operator input lines; each `input(...)` call
consumes one and applies `.strip()`.  Returns `none` when `input()`
hits end of stream (Python raises `EOFError`, caught by the driver's
generic handler), otherwise the generated URI, the token after its
in-place mutations (`token['issuer'] = issuer`, possibly
`token['name'] = account`), and the remaining stdin; alongside, the
number of operator prompts issued before returning or failing. -/
def processToken (interactive : Bool) (t : Token) (stdin : List String) :
    Option (String × Token × List String) × Nat :=
  let issuer0 := resolveIssuer t
  if interactive then
    match stdin with
    | [] => (none, 1)
    | line :: rest =>
      let userInput := pyStrip line
      let issuer := if userInput ≠ "" then userInput else issuer0
      let t1 := { t with issuer := some issuer }
      let account := strip_issuer_from_name (t1.name.getD "") issuer
      if hasSubstr ": ".data account.data then
        match rest with
        | [] => (none, 2)
        | line2 :: rest2 =>
          let custom := pyStrip line2
          let t2 := if custom ≠ "" then { t1 with name := some custom } else t1
          (some (generate_otpauth_uri t2, t2, rest2), 2)
      else (some (generate_otpauth_uri t1, t1, rest), 1)
  else
    let t1 := { t with issuer := some issuer0 }
    (some (generate_otpauth_uri t1, t1, stdin), 0)

/-- The token loop of `convert_tokens`: URIs collected in order,
threading the operator input stream; `none` when any token's
processing raised. -/
def runTokens (interactive : Bool) : List Token → List String → Option (List String)
  | [], _ => some []
  | t :: ts, stdin =>
    match (processToken interactive t stdin).1 with
    | none => none
    | some (uri, _, rest) => (runTokens interactive ts rest).map (uri :: ·)

/-- What the driver finds when it opens and parses the input file:
the file is missing (`FileNotFoundError`), its contents are not JSON
(`json.JSONDecodeError`), or a parsed token list — the value of
`data.get('decrypted_authenticator_tokens', [])`, so a JSON object
without that key is `parsed []`. -/
inductive InputData where
  | notFound : InputData
  | badJson : InputData
  | parsed : List Token → InputData

/-- Observable outcome of one `convert_tokens` call: the contents
written to the output file (`none` when no write happened) and the
messages logged at error level. -/
structure ConvResult where
  output : Option String
  errors : List String

/-- `convert_tokens(input_file, output_file, interactive)` from
src/convert.py: the try/except body, with the three `except` arms
(`FileNotFoundError`, `json.JSONDecodeError`, generic `Exception`)
logging an error and returning normally. -/
def convert_tokens (input : InputData) (interactive : Bool) (stdin : List String) : ConvResult :=
  match input with
  | .notFound => { output := none, errors := ["error: could not find input"] }
  | .badJson => { output := none, errors := ["error: invalid JSON in input"] }
  | .parsed tokens =>
    if tokens.isEmpty then
      { output := none, errors := ["No tokens found in the input file."] }
    else
      match runTokens interactive tokens stdin with
      | none => { output := none, errors := ["error: unexpected"] }
      | some uris => { output := some (String.intercalate "\n" uris), errors := [] }

/-- The spec's description of the fallback chain, step by step: the
candidate each of the five steps proposes ("produced nothing" =
empty string). -/
def specCandidates (t : Token) : List String :=
  [ t.issuer.getD ""
  , (match t.logo with
     | some logo => if pyStartsWith logo "authenticator_" then "" else logo
     | none => "")
  , (match t.account_type with
     | some a => if pyStartsWith a "authenticator" then "" else a
     | none => "")
  , (let name := t.name.getD ""
     if name.data.contains ':' then pyStrip (String.mk (name.data.takeWhile (· != ':')))
     else "")
  , pyStrip (t.name.getD "") ]

/-- First candidate that produced something, else the empty string. -/
def firstUsable : List String → String
  | [] => ""
  | s :: rest => if s ≠ "" then s else firstUsable rest

/-- The issuer resolution chain as the spec words it: an ordered
fallback list in which each step is consulted only when every earlier
step produced nothing. -/
def resolveChainSpec (t : Token) : String :=
  firstUsable (specCandidates t)

/-- Name cleaning as the spec words it: match the literal issuer text
case-insensitively at the start of the name, followed by a colon,
hyphen or whitespace separator, each optionally surrounded by
whitespace; remove the match and trim, and return the trimmed name
when no such occurrence exists. -/
def stripSpecDesc (name issuer : String) : String :=
  if name = "" then ""
  else if issuer = "" then pyStrip name
  else
    match stripCaseless issuer.data name.data with
    | none => pyStrip name
    | some r =>
      match r.dropWhile isPySpace with
      | c :: rest =>
        if c = ':' || c = '-' then pyStrip (String.mk rest)
        else if (r.takeWhile isPySpace).isEmpty then pyStrip name
        else pyStrip (String.mk (c :: rest))
      | [] => if (r.takeWhile isPySpace).isEmpty then pyStrip name else ""

theorem dropWhile_idem (p : Char → Bool) (l : List Char) :
    (l.dropWhile p).dropWhile p = l.dropWhile p := by
  induction l with
  | nil => rfl
  | cons c cs ih =>
    by_cases h : p c
    · simp [List.dropWhile, h, ih]
    · simp [List.dropWhile, h]

theorem trimL_dropWhile (l : List Char) :
    trimL (l.dropWhile isPySpace) = trimL l := by
  simp [trimL, dropWhile_idem]

theorem pyStrip_mk_dropWhile (l : List Char) :
    pyStrip (String.mk (l.dropWhile isPySpace)) = pyStrip (String.mk l) := by
  simp [pyStrip, trimL_dropWhile]

theorem stripCaseless_drop (p s r : List Char) (h : stripCaseless p s = some r) :
    r = s.drop p.length := by
  induction p generalizing s with
  | nil => simpa [stripCaseless] using h.symm
  | cons c cs ih =>
    cases s with
    | nil => simp [stripCaseless] at h
    | cons d ds =>
      rw [stripCaseless] at h
      by_cases hc : c.toLower = d.toLower
      · simpa using ih ds (by simpa [hc] using h)
      · simp [hc] at h

theorem exists_dropWhile_eq_drop (p : Char → Bool) (l : List Char) :
    ∃ j, l.dropWhile p = l.drop j := by
  induction l with
  | nil => exact ⟨0, rfl⟩
  | cons c cs ih =>
    by_cases h : p c
    · obtain ⟨j, hj⟩ := ih
      exact ⟨j + 1, by simp [List.dropWhile, h, hj]⟩
    · exact ⟨0, by simp [List.dropWhile, h]⟩

theorem sepConsume_drop (r rest : List Char) (h : sepConsume r = some rest) :
    ∃ j, rest = r.drop j := by
  obtain ⟨j, hj⟩ := exists_dropWhile_eq_drop isPySpace r
  rw [sepConsume] at h
  cases hd : r.dropWhile isPySpace with
  | nil =>
    rw [hd] at h
    by_cases he : (r.takeWhile isPySpace).isEmpty = true
    · simp [he] at h
    · refine ⟨r.length, ?_⟩
      simp [he] at h
      subst h
      simp
  | cons c cs =>
    rw [hd] at h
    have hcons : c :: cs = r.drop j := by rw [← hj, hd]
    by_cases hc : (c = ':' || c = '-') = true
    · obtain ⟨j2, hj2⟩ := exists_dropWhile_eq_drop isPySpace cs
      refine ⟨j + 1 + j2, ?_⟩
      simp only [hc, if_true, Option.some.injEq] at h
      have hcs : cs = r.drop (j + 1) := by
        have h1 : List.drop 1 (c :: cs) = cs := rfl
        rw [← h1, hcons, List.drop_drop]
      rw [← h, hj2, hcs, List.drop_drop]
    · by_cases he : (r.takeWhile isPySpace).isEmpty = true
      · simp [hc, he] at h
      · simp [hc, he] at h
        exact ⟨j, h ▸ hcons⟩

theorem strip_eq_specDesc (n i : String) :
    strip_issuer_from_name n i = stripSpecDesc n i := by
  unfold strip_issuer_from_name stripSpecDesc
  by_cases hn : n = ""
  · simp [hn]
  · simp only [hn, if_false]
    by_cases hi : i = ""
    · simp [hi]
    · simp only [hi, if_false]
      cases hm : stripCaseless i.data n.data with
      | none => rfl
      | some r =>
        unfold sepConsume
        cases hd : r.dropWhile isPySpace with
        | nil =>
          simp only [hd]
          by_cases he : (r.takeWhile isPySpace).isEmpty = true
          · simp [he]
          · simp [he, pyStrip, trimL]
        | cons c cs =>
          simp only [hd]
          by_cases hc : (c = ':' || c = '-') = true
          · simp [hc, pyStrip_mk_dropWhile]
          · by_cases he : (r.takeWhile isPySpace).isEmpty = true
            · simp [hc, he]
            · simp [hc, he]

theorem cand2_eq (o : Option String) :
    (match o with
     | some logo => if logo ≠ "" && !(pyStartsWith logo "authenticator_") then logo else ""
     | none => "")
    = (match o with
       | some logo => if pyStartsWith logo "authenticator_" then "" else logo
       | none => "") := by
  cases o with
  | none => rfl
  | some l =>
    by_cases hl : l = ""
    · subst hl; decide
    · by_cases hs : pyStartsWith l "authenticator_" = true
      · simp [hl, hs]
      · simp [hl, hs]

theorem cand3_eq (o : Option String) :
    (match o with
     | some a => if a ≠ "" && !(pyStartsWith a "authenticator") then a else ""
     | none => "")
    = (match o with
       | some a => if pyStartsWith a "authenticator" then "" else a
       | none => "") := by
  cases o with
  | none => rfl
  | some a =>
    by_cases ha : a = ""
    · subst ha; decide
    · by_cases hs : pyStartsWith a "authenticator" = true
      · simp [ha, hs]
      · simp [ha, hs]

theorem cascade_firstUsable (c1 c2 c3 c4 c5 : String) :
    (let a := c1
     let b := if a = "" then c2 else a
     let c := if b = "" then c3 else b
     let d := if c = "" then c4 else c
     if d = "" then c5 else d) = firstUsable [c1, c2, c3, c4, c5] := by
  simp only [firstUsable]
  by_cases h1 : c1 = "" <;> by_cases h2 : c2 = "" <;> by_cases h3 : c3 = "" <;>
    by_cases h4 : c4 = "" <;> by_cases h5 : c5 = "" <;> simp [h1, h2, h3, h4, h5]

theorem resolvePre_eq_chainSpec (t : Token) :
    resolveIssuerPre t = resolveChainSpec t := by
  simp only [resolveIssuerPre, resolveChainSpec, specCandidates, cand2_eq t.logo,
    cand3_eq t.account_type]
  exact cascade_firstUsable _ _ _ _ _

/-- C1: the issuer is resolved by the ordered fallback chain (explicit
issuer, then usable logo, then usable account type, then the part of
the name before a colon, then the full trimmed name), each step tried
only when the previous produced nothing; in particular a non-empty
explicit issuer is returned verbatim (pre-title-casing), and with no
explicit issuer a usable logo wins over a usable account type. -/
theorem c1_issuer_fallback_chain :
    (∀ t : Token, resolveIssuerPre t = resolveChainSpec t) ∧
    (∀ (t : Token) (i : String), t.issuer = some i → i ≠ "" → resolveIssuerPre t = i) ∧
    (∀ (t : Token) (l : String),
      (t.issuer = none ∨ t.issuer = some "") → t.logo = some l → l ≠ "" →
      pyStartsWith l "authenticator_" = false → resolveIssuerPre t = l) := by
  refine ⟨resolvePre_eq_chainSpec, ?_, ?_⟩
  · intro t i hi hne
    simp [resolveIssuerPre, hi, hne]
  · intro t l hiss hlg hne hpre
    rcases hiss with h | h <;> simp [resolveIssuerPre, h, hlg, hne, hpre]

/-- Witness for C1 at concrete tokens: an explicit issuer is returned
unchanged, and a usable logo beats a usable account type. -/
theorem c1_issuer_fallback_chain_witness :
    resolveIssuerPre { issuer := some "Acme", logo := some "other" } = "Acme" ∧
    resolveIssuerPre { logo := some "mybank", account_type := some "corp" } = "mybank" :=
  ⟨c1_issuer_fallback_chain.2.1 _ "Acme" rfl (by decide),
   c1_issuer_fallback_chain.2.2 _ "mybank" (Or.inl rfl) rfl (by decide) (by decide)⟩

/-- C2: for non-empty name and issuer, `strip_issuer_from_name`
removes one leading case-insensitive literal occurrence of the issuer
followed by a colon, hyphen or whitespace separator, each optionally
surrounded by whitespace, trimming the result; an empty issuer
returns the trimmed name; the spec's two examples hold. -/
theorem c2_strip_issuer_spec :
    (∀ n i : String, n ≠ "" → i ≠ "" → strip_issuer_from_name n i = stripSpecDesc n i) ∧
    (∀ n : String, strip_issuer_from_name n "" = pyStrip n) ∧
    strip_issuer_from_name "Acme: Email" "Acme" = "Email" ∧
    strip_issuer_from_name "ACME-jsmith" "Acme" = "jsmith" := by
  refine ⟨fun n i _ _ => strip_eq_specDesc n i, ?_, by decide, by decide⟩
  intro n
  by_cases hn : n = ""
  · subst hn; decide
  · simp [strip_issuer_from_name, hn]

/-- Witness for C2 at concrete inputs. -/
theorem c2_strip_issuer_spec_witness :
    strip_issuer_from_name "Acme: Email" "Acme" = stripSpecDesc "Acme: Email" "Acme" ∧
    strip_issuer_from_name "  a name " "" = pyStrip "  a name " :=
  ⟨c2_strip_issuer_spec.1 "Acme: Email" "Acme" (by decide) (by decide),
   c2_strip_issuer_spec.2.1 "  a name "⟩

/-- C3: query parameters are emitted in the fixed order secret,
issuer, digits, each only when truthy, always followed by the
trailing algorithm=SHA1; the two tokens of the spec produce exactly
the stated URIs. -/
theorem c3_uri_param_order :
    generate_otpauth_uri
      { issuer := some "Acme", name := some "Acme: jsmith",
        decrypted_seed := some "SECRET123", digits := some 6 }
      = "otpauth://totp/Acme%3Ajsmith?secret=SECRET123&issuer=Acme&digits=6&algorithm=SHA1" ∧
    generate_otpauth_uri
      { name := some "jsmith", decrypted_seed := some "SECRET123", digits := some 8 }
      = "otpauth://totp/jsmith?secret=SECRET123&digits=8&algorithm=SHA1" ∧
    ∀ (secret issuer : String) (digits : Nat),
      queryParams secret issuer digits =
        (if secret ≠ "" then ["secret=" ++ secret] else []) ++
        (if issuer ≠ "" then ["issuer=" ++ pyQuote issuer] else []) ++
        (if digits ≠ 0 then ["digits=" ++ toString digits] else []) ++
        ["algorithm=SHA1"] := by
  refine ⟨by decide, by decide, ?_⟩
  intro s i d
  unfold queryParams
  by_cases h1 : s = "" <;> by_cases h2 : i = "" <;> by_cases h3 : d = 0 <;>
    simp [h1, h2, h3]

/-- C4 counterexample: a token whose digits field is present and
falsy (0) does not get digits=6 in its URI — the digits parameter is
omitted entirely, so the claim fails for this token. -/
theorem c4_digits_zero_counterexample :
    generate_otpauth_uri { name := some "jsmith", decrypted_seed := some "S", digits := some 0 }
      = "otpauth://totp/jsmith?secret=S&algorithm=SHA1" ∧
    hasSubstr "digits=6".data "otpauth://totp/jsmith?secret=S&algorithm=SHA1".data = false ∧
    ({ name := some "jsmith", decrypted_seed := some "S", digits := some 0 } : Token).digits
      = some 0 := by
  exact ⟨by decide, by decide, rfl⟩

/-- C4 amended: only an absent digits field defaults to 6 (and then
digits=6 is emitted); a present-but-zero digits field suppresses the
digits parameter instead of defaulting. -/
theorem c4_digits_default :
    (∀ t : Token, t.digits = none →
      tokenDigits t = 6 ∧
      "digits=6" ∈ queryParams (tokenSecret t) (tokenIssuerStr t) (tokenDigits t)) ∧
    (∀ s i : String, queryParams s i 0 =
      (if s ≠ "" then ["secret=" ++ s] else []) ++
      (if i ≠ "" then ["issuer=" ++ pyQuote i] else []) ++ ["algorithm=SHA1"]) := by
  have h6 : ("digits=" ++ toString (6 : Nat)) = "digits=6" := by decide
  constructor
  · intro t h
    have hd : tokenDigits t = 6 := by simp [tokenDigits, h]
    refine ⟨hd, ?_⟩
    rw [hd]
    unfold queryParams
    by_cases h1 : tokenSecret t = "" <;> by_cases h2 : tokenIssuerStr t = "" <;>
      simp [h1, h2, h6]
  · intro s i
    unfold queryParams
    by_cases h1 : s = "" <;> by_cases h2 : i = "" <;> simp [h1, h2]

/-- Witness for C4 amended at a concrete token with no digits field. -/
theorem c4_digits_default_witness :
    tokenDigits { name := some "jsmith" } = 6 ∧
    "digits=6" ∈ queryParams (tokenSecret { name := some "jsmith" })
      (tokenIssuerStr { name := some "jsmith" }) (tokenDigits { name := some "jsmith" }) :=
  c4_digits_default.1 { name := some "jsmith" } rfl

/-- C5: title-casing of the resolved issuer capitalizes exactly the
first character of each whitespace-separated word that starts with a
lowercase letter, leaves other words alone, and rejoins with single
spaces; "my bank" becomes "My Bank" and "My BANK" stays "My BANK". -/
theorem c5_title_casing :
    resolveIssuer { issuer := some "my bank" } = "My Bank" ∧
    resolveIssuer { issuer := some "My BANK" } = "My BANK" ∧
    (∀ t : Token, resolveIssuerPre t ≠ "" → resolveIssuer t = titleCase (resolveIssuerPre t)) ∧
    (∀ (c : Char) (cs : List Char), c.isLower = true →
      capFirst (String.mk (c :: cs)) = String.mk (c.toUpper :: cs)) ∧
    (∀ (c : Char) (cs : List Char), c.isLower = false →
      capFirst (String.mk (c :: cs)) = String.mk (c :: cs)) := by
  refine ⟨by decide, by decide, ?_, ?_, ?_⟩
  · intro t h
    simp [resolveIssuer, h]
  · intro c cs h
    simp [capFirst, capFirstL, h]
  · intro c cs h
    simp [capFirst, capFirstL, h]

/-- Witness for C5 at concrete inputs. -/
theorem c5_title_casing_witness :
    resolveIssuer { issuer := some "giTHub" } = titleCase (resolveIssuerPre { issuer := some "giTHub" }) ∧
    capFirst (String.mk ['m', 'y']) = String.mk ['M', 'y'] ∧
    capFirst (String.mk ['B', 'K']) = String.mk ['B', 'K'] :=
  ⟨c5_title_casing.2.2.1 _ (by decide),
   c5_title_casing.2.2.2.1 'm' ['y'] (by decide),
   c5_title_casing.2.2.2.2 'B' ['K'] (by decide)⟩

/-- C6 counterexample: a token with no usable hints whose name is
":jsmith" contains a colon, yet the chain does not resolve to the
before-colon substring (which trims to the empty string) — it falls
through to the full trimmed name instead. -/
theorem c6_empty_head_counterexample :
    resolveIssuerPre { name := some ":jsmith" } = ":jsmith" ∧
    (({ name := some ":jsmith" } : Token).name.getD "").data.contains ':' = true ∧
    pyStrip (String.mk ((":jsmith" : String).data.takeWhile (· != ':'))) = "" ∧
    (":jsmith" : String) ≠ "" := by
  exact ⟨by decide, by decide, by decide, by decide⟩

/-- C6 amended: with no usable hints and a colon in the name, the
chain yields the trimmed before-colon substring when that substring
is non-empty after trimming, and otherwise falls through to the full
trimmed name. -/
theorem c6_before_colon (t : Token)
    (hiss : t.issuer = none ∨ t.issuer = some "")
    (hlogo : ∀ l, t.logo = some l → l = "" ∨ pyStartsWith l "authenticator_" = true)
    (hacct : ∀ a, t.account_type = some a → a = "" ∨ pyStartsWith a "authenticator" = true)
    (hcolon : (t.name.getD "").data.contains ':' = true) :
    resolveIssuerPre t =
      (let b := pyStrip (String.mk ((t.name.getD "").data.takeWhile (· != ':')))
       if b = "" then pyStrip (t.name.getD "") else b) := by
  rw [resolvePre_eq_chainSpec]
  unfold resolveChainSpec specCandidates
  have h1 : t.issuer.getD "" = "" := by rcases hiss with h | h <;> simp [h]
  have h2 : (match t.logo with
             | some logo => if pyStartsWith logo "authenticator_" then "" else logo
             | none => "") = "" := by
    cases hl : t.logo with
    | none => rfl
    | some l =>
      rcases hlogo l hl with h | h
      · subst h; simp
      · simp [h]
  have h3 : (match t.account_type with
             | some a => if pyStartsWith a "authenticator" then "" else a
             | none => "") = "" := by
    cases ha : t.account_type with
    | none => rfl
    | some a =>
      rcases hacct a ha with h | h
      · subst h; simp
      · simp [h]
  rw [h1, h2, h3]
  simp only [firstUsable, hcolon, if_true]
  by_cases hb : pyStrip (String.mk ((t.name.getD "").data.takeWhile (· != ':'))) = ""
  · by_cases hc5 : pyStrip (t.name.getD "") = ""
    · simp [hb, hc5]
    · simp [hb, hc5]
  · simp [hb]

/-- Witness for C6 amended at a concrete token. -/
theorem c6_before_colon_witness :
    resolveIssuerPre { name := some "Acme: jsmith" } =
      (let b := pyStrip (String.mk (("Acme: jsmith" : String).data.takeWhile (· != ':')))
       if b = "" then pyStrip "Acme: jsmith" else b) :=
  c6_before_colon { name := some "Acme: jsmith" } (Or.inl rfl)
    (fun l hl => nomatch hl) (fun a ha => nomatch ha) (by decide)

/-- C7 counterexample: in interactive mode a token whose `issuer`
field is explicitly present and non-empty still triggers an operator
prompt, so the prompt is not restricted to tokens without an explicit
issuer. -/
theorem c7_prompt_counterexample :
    (processToken true { issuer := some "Acme", name := some "jsmith" } [""]).2 = 1 ∧
    ({ issuer := some "Acme", name := some "jsmith" } : Token).issuer = some "Acme" ∧
    ("Acme" : String) ≠ "" := by
  exact ⟨by decide, rfl, by decide⟩

/-- C7 amended: in interactive mode the resolver prompts for every
token (at least one prompt each, none in batch mode); an empty or
whitespace-only input line accepts the proposed issuer unchanged, and
a non-empty line replaces it with the typed text stripped of
surrounding whitespace, with no re-title-casing. -/
theorem c7_interactive_prompts :
    (∀ (t : Token) (stdin : List String), (processToken false t stdin).2 = 0) ∧
    (∀ (t : Token) (stdin : List String), (processToken true t stdin).2 ≥ 1) ∧
    (∀ (t : Token) (line : String) (rest : List String) (uri : String) (tk : Token)
        (rem : List String),
      (processToken true t (line :: rest)).1 = some (uri, tk, rem) →
      tk.issuer = some (if pyStrip line = "" then resolveIssuer t else pyStrip line)) := by
  refine ⟨?_, ?_, ?_⟩
  · intro t stdin
    simp [processToken]
  · intro t stdin
    cases stdin with
    | nil => simp [processToken]
    | cons line rest =>
      simp only [processToken]
      repeat' split
      all_goals simp_all
  · intro t line rest uri tk rem h
    by_cases hu : pyStrip line = ""
    · simp [processToken, hu] at h
      split at h
      · cases rest with
        | nil => simp at h
        | cons l2 r2 =>
          simp only [Option.some.injEq, Prod.mk.injEq] at h
          obtain ⟨-, htk, -⟩ := h
          subst htk
          split <;> simp [hu]
      · simp only [Option.some.injEq, Prod.mk.injEq] at h
        obtain ⟨-, htk, -⟩ := h
        subst htk
        simp [hu]
    · simp [processToken, hu] at h
      split at h
      · cases rest with
        | nil => simp at h
        | cons l2 r2 =>
          simp only [Option.some.injEq, Prod.mk.injEq] at h
          obtain ⟨-, htk, -⟩ := h
          subst htk
          split <;> simp [hu]
      · simp only [Option.some.injEq, Prod.mk.injEq] at h
        obtain ⟨-, htk, -⟩ := h
        subst htk
        simp [hu]

/-- Witness for C7 amended at concrete tokens and operator input. -/
theorem c7_interactive_prompts_witness :
    (processToken false { name := some "jsmith" } []).2 = 0 ∧
    (processToken true { name := some "jsmith" } ["NewCorp"]).2 ≥ 1 ∧
    ({ name := some "jsmith", issuer := some "NewCorp" } : Token).issuer
      = some (if pyStrip "NewCorp" = "" then resolveIssuer { name := some "jsmith" }
              else pyStrip "NewCorp") :=
  ⟨c7_interactive_prompts.1 _ _,
   c7_interactive_prompts.2.1 _ _,
   c7_interactive_prompts.2.2 { name := some "jsmith" } "NewCorp" []
     (generate_otpauth_uri { name := some "jsmith", issuer := some "NewCorp" })
     { name := some "jsmith", issuer := some "NewCorp" } [] (by rfl)⟩

/-- C8: a missing input file, invalid JSON, or a parse with no tokens
under the expected key each make the batch driver log an error and
write no output; the driver is a total function on these inputs, so
it returns normally rather than propagating an exception. -/
theorem c8_error_paths :
    ∀ (interactive : Bool) (stdin : List String),
      ((convert_tokens .notFound interactive stdin).output = none ∧
       (convert_tokens .notFound interactive stdin).errors ≠ []) ∧
      ((convert_tokens .badJson interactive stdin).output = none ∧
       (convert_tokens .badJson interactive stdin).errors ≠ []) ∧
      ((convert_tokens (.parsed []) interactive stdin).output = none ∧
       (convert_tokens (.parsed []) interactive stdin).errors ≠ []) := by
  intro i s
  refine ⟨⟨rfl, ?_⟩, ⟨rfl, ?_⟩, ⟨?_, ?_⟩⟩ <;> simp [convert_tokens]

/-- C9: URI generation is total over token records — for every token
it returns the assembled URI built from the encoded label and the
query parameter list, which always contains the trailing
algorithm=SHA1 entry and has exactly one entry per truthy source
value plus the algorithm entry. -/
theorem c9_uri_generation_total :
    ∀ t : Token,
      queryParams (tokenSecret t) (tokenIssuerStr t) (tokenDigits t) ≠ [] ∧
      generate_otpauth_uri t =
        "otpauth://totp/" ++ pyQuote (tokenLabel t) ++ "?" ++
          String.intercalate "&" (queryParams (tokenSecret t) (tokenIssuerStr t) (tokenDigits t)) ∧
      "algorithm=SHA1" ∈ queryParams (tokenSecret t) (tokenIssuerStr t) (tokenDigits t) ∧
      (queryParams (tokenSecret t) (tokenIssuerStr t) (tokenDigits t)).length =
        (if tokenSecret t ≠ "" then 1 else 0) + (if tokenIssuerStr t ≠ "" then 1 else 0) +
        (if tokenDigits t ≠ 0 then 1 else 0) + 1 := by
  intro t
  have hne : queryParams (tokenSecret t) (tokenIssuerStr t) (tokenDigits t) ≠ [] := by
    unfold queryParams
    simp
  refine ⟨hne, ?_, ?_, ?_⟩
  · unfold generate_otpauth_uri
    simp [hne]
  · unfold queryParams
    simp
  · unfold queryParams
    by_cases h1 : tokenSecret t = "" <;> by_cases h2 : tokenIssuerStr t = "" <;>
      by_cases h3 : tokenDigits t = 0 <;> simp [h1, h2, h3]

/-- C10: name cleaning removes at most one issuer-plus-separator
occurrence, anchored at the start: "Acme: Acme: jsmith" with issuer
"Acme" keeps the second occurrence, and in general the result is
always the original name with some prefix removed, then trimmed —
never a deeper rewrite. -/
theorem c10_strip_at_most_once :
    strip_issuer_from_name "Acme: Acme: jsmith" "Acme" = "Acme: jsmith" ∧
    ∀ n i : String, ∃ k, strip_issuer_from_name n i = pyStrip (String.mk (n.data.drop k)) := by
  refine ⟨by decide, ?_⟩
  intro n i
  by_cases hn : n = ""
  · subst hn
    refine ⟨0, ?_⟩
    simp [strip_issuer_from_name, pyStrip, trimL]
  · by_cases hi : i = ""
    · subst hi
      refine ⟨0, ?_⟩
      rw [List.drop_zero]
      simp [strip_issuer_from_name, hn]
    · unfold strip_issuer_from_name
      rw [if_neg hn, if_neg hi]
      cases hm : stripCaseless i.data n.data with
      | none =>
        refine ⟨0, ?_⟩
        rw [List.drop_zero]
      | some r =>
        have hr : r = n.data.drop i.data.length := stripCaseless_drop i.data n.data r hm
        cases hs : sepConsume r with
        | none =>
          refine ⟨0, ?_⟩
          rw [List.drop_zero]
          simp only [hs]
        | some rest =>
          obtain ⟨j, hj⟩ := sepConsume_drop r rest hs
          refine ⟨i.data.length + j, ?_⟩
          simp only [hs]
          rw [hj, hr, List.drop_drop]
